import Mathlib

set_option maxRecDepth 16384

/-!
# Verification of the skill-package Scaffolder and Validator

Shallow embedding of the Scaffolder
(`assets/skills/generate-agent-skills/scripts/scaffold_skill.py`) and of
the Validator (`.github/skills/generate-agent-skills/scripts/validate_skill.py`),
both translated from the repository's source.

Text content is modelled as `List Char`; a text file is its exact character
sequence.  The model filesystem is keyed by resolved component paths
(`List String`); path strings are handled with faithful renderings of
`posixpath.normpath`, `basename` and `join`.
-/

/-! ## Character classes and the NameRule

From `scaffold_skill.py`, line 351:
`re.match(r'^[a-z0-9][a-z0-9-]*[a-z0-9]$', skill_name)`.

Python `re.match` anchors at the start of the string; `$` (without
`re.MULTILINE`) matches at the end of the string *or just before a single
trailing newline*.  `reMatchNamePattern` reproduces exactly that semantics.
-/

/-- `[a-z0-9]`: lowercase ASCII letter or digit. -/
def isNameChar (c : Char) : Bool :=
  ('a' ≤ c && c ≤ 'z') || ('0' ≤ c && c ≤ '9')

/-- `[a-z0-9-]`: lowercase ASCII letter, digit, or hyphen. -/
def isNameBody (c : Char) : Bool :=
  isNameChar c || c == '-'

/-- Full match of `[a-z0-9-]*[a-z0-9]` against the whole character list. -/
def tailMatch : List Char → Bool
  | [] => false
  | [c] => isNameChar c
  | c :: rest => isNameBody c && tailMatch rest

/-- Full match of `[a-z0-9][a-z0-9-]*[a-z0-9]` against the whole character list. -/
def coreMatch : List Char → Bool
  | [] => false
  | c :: rest => isNameChar c && tailMatch rest

/-- Python `re.match(r'^[a-z0-9][a-z0-9-]*[a-z0-9]$', s)` truthiness:
the core pattern matches the whole string, or the whole string minus a
single trailing newline (the `$` end-of-string rule). -/
def reMatchNamePattern (cs : List Char) : Bool :=
  coreMatch cs ||
    (match cs.getLast? with
     | some c => c == '\n' && coreMatch cs.dropLast
     | none => false)

/-- The naming check applied to a `String`, as both components use it
(`scaffold_skill.py` line 351; the Validator per spec §4.1 uses the same
pattern). -/
def isLegalIdentifier (s : String) : Bool :=
  reMatchNamePattern s.toList

/-- Whether the first character of the list is alphanumeric (false on `[]`). -/
def headIsNameChar (cs : List Char) : Bool :=
  match cs.head? with
  | some c => isNameChar c
  | none => false

/-- Whether the last character of the list is alphanumeric (false on `[]`). -/
def lastIsNameChar (cs : List Char) : Bool :=
  match cs.getLast? with
  | some c => isNameChar c
  | none => false

/-- The spec's P1 characterization of a legal identifier, stated on a
character list: length at least 2, only lowercase alphanumerics and hyphens,
first and last characters alphanumeric. -/
def specLegalChars (cs : List Char) : Bool :=
  decide (2 ≤ cs.length) && cs.all isNameBody &&
    headIsNameChar cs && lastIsNameChar cs

/-- The spec's P1 characterization of a legal identifier, on strings. -/
def specLegal (s : String) : Bool :=
  specLegalChars s.toList

/-! ## Character-list utilities -/

/-- Split a character list at every occurrence of `sep`; always returns at
least one (possibly empty) chunk, like Python `str.split(sep)`. -/
def splitOnChar (sep : Char) : List Char → List (List Char)
  | [] => [[]]
  | c :: rest =>
    if c = sep then [] :: splitOnChar sep rest
    else
      match splitOnChar sep rest with
      | [] => [[c]]
      | l :: ls => (c :: l) :: ls

/-- Python whitespace (`string.whitespace`), the set stripped by `str.strip()`. -/
def isSpaceChar (c : Char) : Bool :=
  c == ' ' || c == '\t' || c == '\n' || c == '\r' || c == '\x0b' || c == '\x0c'

/-- Python `str.strip()`: remove leading and trailing whitespace. -/
def trimChars (cs : List Char) : List Char :=
  ((cs.dropWhile isSpaceChar).reverse.dropWhile isSpaceChar).reverse

/-- Remove `p` from the front of `line` if `line` starts with it. -/
def stripPrefixChars : List Char → List Char → Option (List Char)
  | [], line => some line
  | _ :: _, [] => none
  | p :: ps, c :: cs => if c = p then stripPrefixChars ps cs else none

/-- One step of the per-line regex scan `^key:\s*(.+)$` (spec §6): if the
line starts with `key:`, the captured group is the rest of the line with the
leading whitespace eaten by the greedy `\s*`; `(.+)` forces the group to be
nonempty, so a line ending right after the colon does not match, and a line
with only whitespace after the colon captures the final whitespace character
(backtracking leaves exactly one character for `.+`). -/
def matchKeyLine (key line : List Char) : Option (List Char) :=
  match stripPrefixChars (key ++ [':']) line with
  | none => none
  | some rest =>
    if rest.isEmpty then none
    else if rest.all isSpaceChar then some (rest.drop (rest.length - 1))
    else some (rest.dropWhile isSpaceChar)

/-- First match of the key scan over the document's lines (multi-line scan;
only the first matching line is honored, spec §6). -/
def findField (key : List Char) : List (List Char) → Option (List Char)
  | [] => none
  | line :: rest =>
    match matchKeyLine key line with
    | some v => some v
    | none => findField key rest

/-- Split a document into its lines. -/
def splitLines (cs : List Char) : List (List Char) :=
  splitOnChar '\n' cs

/-- The two front-matter keys the Validator scans for. -/
def nameKey : List Char := "name".toList

def descriptionKey : List Char := "description".toList

/-! ## Filesystem model

A flat store mapping component paths to entries; later inserts shadow
earlier ones.  A text file holds its exact character sequence; `binary`
stands for a file whose bytes cannot be decoded as text. -/

abbrev FsPath := List String

inductive FileData
  | text (content : List Char)
  | binary
  deriving DecidableEq

inductive FsEntry
  | file (data : FileData)
  | dir
  deriving DecidableEq

abbrev FS := List (FsPath × FsEntry)

def fsLookup : FS → FsPath → Option FsEntry
  | [], _ => none
  | (q, e) :: rest, p => if q = p then some e else fsLookup rest p

def existsPath (fs : FS) (p : FsPath) : Bool :=
  (fsLookup fs p).isSome

def isDirAt (fs : FS) (p : FsPath) : Bool :=
  match fsLookup fs p with
  | some FsEntry.dir => true
  | _ => false

/-! ## Validator

Shallow embedding of
`.github/skills/generate-agent-skills/scripts/validate_skill.py`.

Path strings are manipulated exactly as `os.path` does (`normpath`,
`basename`, `join`).  The model filesystem resolves a path string by
splitting on the separator and discarding empty components, which is how
POSIX resolution collapses duplicate and trailing slashes; `.` and `..`
are ordinary entry names to the model store (neither program under
verification constructs such components).  The unguarded
`open(skill_md_path, 'r').read()` at lines 24–25 is fallible — an
undecodable file raises `UnicodeDecodeError` and a directory raises
`IsADirectoryError`, neither of which is caught — so `validate_skill`
returns `Except`. -/

/-- `posixpath.basename`: the suffix after the last slash. -/
def basenameChars (p : List Char) : List Char :=
  (p.reverse.takeWhile (fun c => c != '/')).reverse

/-- The `initial_slashes` computation of `posixpath.normpath`: 0, 1, or 2
(2 only for exactly two leading slashes, which POSIX permits to be
distinct from one). -/
def initialSlashesOf (p : List Char) : Nat :=
  if p.head? = some '/' then
    if p.take 2 = ['/', '/'] ∧ p.take 3 ≠ ['/', '/', '/'] then 2 else 1
  else 0

/-- One step of `posixpath.normpath`'s component loop: skip empty and `.`
components; append a component unless it is a poppable `..`, which pops
(and is dropped when there is nothing to pop). -/
def normComp (initialSlashes : Nat) (acc : List (List Char)) (comp : List Char) :
    List (List Char) :=
  if comp = [] ∨ comp = ['.'] then acc
  else if comp ≠ ['.', '.'] ∨ (initialSlashes = 0 ∧ acc = []) ∨
      acc.getLast? = some ['.', '.'] then
    acc ++ [comp]
  else acc.dropLast

/-- `'/'.join(comps)`. -/
def joinSlash : List (List Char) → List Char
  | [] => []
  | [x] => x
  | x :: xs => x ++ '/' :: joinSlash xs

/-- The component stack `new_comps` built by `posixpath.normpath`. -/
def newCompsOf (p : List Char) : List (List Char) :=
  (splitOnChar '/' p).foldl (normComp (initialSlashesOf p)) []

/-- `posixpath.normpath`. -/
def normpathChars (p : List Char) : List Char :=
  if p = [] then ['.']
  else
    let joined :=
      List.replicate (initialSlashesOf p) '/' ++ joinSlash (newCompsOf p)
    if joined = [] then ['.'] else joined

/-- `posixpath.join` with a single tail component. -/
def joinPathChars (p b : List Char) : List Char :=
  if b.head? = some '/' then b
  else if p = [] ∨ p.getLast? = some '/' then p ++ b
  else p ++ '/' :: b

/-- `skill_dir = os.path.basename(os.path.normpath(path))`, line 7. -/
def skill_dir_of (path : String) : String :=
  String.mk (basenameChars (normpathChars path.toList))

/-- `os.path.join(path, b)` on strings. -/
def joinPath (p b : String) : String :=
  String.mk (joinPathChars p.toList b.toList)

/-- The model filesystem resolves a path string to entry-store components:
split on the separator, discard empty components (POSIX slash
collapsing). -/
def pathComps (cs : List Char) : FsPath :=
  ((splitOnChar '/' cs).filter (fun l => !l.isEmpty)).map (fun l => String.mk l)

def parsePath (s : String) : FsPath :=
  pathComps s.toList

/-- The `errors` and `warnings` lists accumulated by `validate_skill`
(lines 9–10). -/
structure Report where
  errors : List String
  warnings : List String
  deriving DecidableEq

/-- The uncaught exceptions the unguarded `open(...).read()` can raise. -/
inductive PyError
  | unicodeDecodeError
  | isADirectoryError
  deriving DecidableEq

/-- Step 1 (lines 15–16): the naming check, with the code's message. -/
def namingErrors (skill_dir : String) : List String :=
  if reMatchNamePattern skill_dir.toList then []
  else ["Directory name violates regex (lowercase/hyphens only)."]

/-- The f-string of line 30, interpolating the stripped front-matter name
and the (untrimmed) directory name. -/
def yamlMismatchMsg (stripped skill_dir : String) : String :=
  "YAML name \x27" ++ stripped ++ "\x27 mismatches directory \x27" ++
    skill_dir ++ "\x27."

/-- Step 3 (lines 27–34): scan for the `name` field — missing is an error;
present, its value is stripped and compared with the *untrimmed* directory
name — then scan for the `description` field. -/
def metadataErrors (skill_dir : String) (content : List Char) : List String :=
  (match findField nameKey (splitLines content) with
   | none => ["YAML frontmatter missing \x27name\x27 field."]
   | some v =>
     if String.mk (trimChars v) = skill_dir then []
     else [yamlMismatchMsg (String.mk (trimChars v)) skill_dir]) ++
  (match findField descriptionKey (splitLines content) with
   | none => ["YAML frontmatter missing \x27description\x27 field."]
   | some _ => [])

/-- Steps 2–3 (lines 19–34): the missing-entry-point error when `SKILL.md`
does not exist; otherwise the unguarded read followed by the metadata
checks.  Reading an undecodable file raises `UnicodeDecodeError`;
`os.path.exists` is true for a directory named `SKILL.md`, whose read
raises `IsADirectoryError`. -/
def contentErrors (fs : FS) (path skill_dir : String) :
    Except PyError (List String) :=
  match fsLookup fs (parsePath (joinPath path "SKILL.md")) with
  | none => Except.ok ["Missing SKILL.md (The mandatory entry point)."]
  | some (FsEntry.file (FileData.text content)) =>
    Except.ok (metadataErrors skill_dir content)
  | some (FsEntry.file FileData.binary) => Except.error PyError.unicodeDecodeError
  | some FsEntry.dir => Except.error PyError.isADirectoryError

/-- Step 4 (lines 38–45): the advisory warnings; the references warning is
appended before the scripts warning. -/
def warningsOf (fs : FS) (path : String) : List String :=
  (if isDirAt fs (parsePath (joinPath path "references")) then []
   else ["No \x27references/\x27 directory found. (Acceptable for simple skills)."]) ++
  (if isDirAt fs (parsePath (joinPath path "scripts")) then []
   else ["No \x27scripts/\x27 directory found. (Acceptable for pure-prompt skills)."])

/-- `validate_skill(path)` (lines 6–56): errors accumulate in source order
(naming, entry point, metadata), then the warnings; an uncaught read
exception aborts the run, producing no report at all. -/
def validate_skill (fs : FS) (path : String) : Except PyError Report :=
  let skill_dir := skill_dir_of path
  match contentErrors fs path skill_dir with
  | Except.error e => Except.error e
  | Except.ok errs =>
    Except.ok
      { errors := namingErrors skill_dir ++ errs
        warnings := warningsOf fs path }

/-- Line 48: the run passes iff no error was recorded (`if errors:`). -/
def statusPass (r : Report) : Bool :=
  r.errors.isEmpty

/-- Lines 48–51: `sys.exit(1)` when any error was recorded; implicit exit
code 0 otherwise. -/
def exitCode (r : Report) : Nat :=
  if r.errors.isEmpty then 0 else 1

/-- Lines 48–56: the errors are printed on failure; the warnings are
printed only on a pass. -/
def printedFindings (r : Report) : List String :=
  r.errors ++ (if r.errors.isEmpty then r.warnings else [])

/-- The error list of a completed run: `some` of the report's errors when
the run produced a report, `none` when it crashed. -/
def reportedErrors (x : Except PyError Report) : Option (List String) :=
  match x with
  | Except.ok r => some r.errors
  | Except.error _ => none

instance : DecidableEq (Except PyError Report)
  | Except.ok a, Except.ok b =>
    if h : a = b then isTrue (by rw [h]) else isFalse (by simp [h])
  | Except.ok _, Except.error _ => isFalse (by simp)
  | Except.error _, Except.ok _ => isFalse (by simp)
  | Except.error a, Except.error b =>
    if h : a = b then isTrue (by rw [h]) else isFalse (by simp [h])

/-! ## Scaffolder templates

The static template text from `scaffold_skill.py`, split at the
`.format` substitution points; `SKILL_MD_TEMPLATE` substitutes
`skill_name`, `skill_title`, `skill_name` in that order,
`EXAMPLE_SCRIPT_TEMPLATE` substitutes `skill_name` three times,
`EXAMPLE_REFERENCE_TEMPLATE` substitutes `skill_title` once, and
`ASSETS_README_TEMPLATE` has no substitution.  Doubled braces in the
Python format strings are rendered as single braces here, exactly as
`.format` emits them. -/


def SKILL_MD_TEMPLATE_0 : String :=
  "---\n" ++
  "name: "

def SKILL_MD_TEMPLATE_1 : String :=
  "\n" ++
  "description: [TODO: Complete and informative explanation of what the skill does and when to use it. Include WHEN to use this skill - specific scenarios, file types, or tasks that trigger it.]\n" ++
  "---\n" ++
  "\n" ++
  "# "

def SKILL_MD_TEMPLATE_2 : String :=
  "\n" ++
  "\n" ++
  "## Overview\n" ++
  "\n" ++
  "[TODO: 1-2 sentences explaining what this skill enables]\n" ++
  "\n" ++
  "## Structuring This Skill\n" ++
  "\n" ++
  "[TODO: Choose the structure that best fits this skill\x27s purpose. Common patterns:\n" ++
  "\n" ++
  "**1. Workflow-Based** (best for sequential processes)\n" ++
  "- Works well when there are clear step-by-step procedures\n" ++
  "- Example: Document processing with \"Analyze\" → \"Extract\" → \"Validate\" → \"Report\"\n" ++
  "- Structure: ## Overview → ## Workflow → ## Step 1 → ## Step 2...\n" ++
  "- See `references/workflows.md` for workflow patterns\n" ++
  "\n" ++
  "**2. Task-Based** (best for tool collections)\n" ++
  "- Works well when the skill offers different operations/capabilities\n" ++
  "- Example: PDF skill with \"Merge PDFs\" → \"Split PDFs\" → \"Extract Text\"\n" ++
  "- Structure: ## Overview → ## Quick Start → ## Task Category 1 → ## Task Category 2...\n" ++
  "\n" ++
  "**3. Reference/Guidelines** (best for standards or specifications)\n" ++
  "- Works well for brand guidelines, coding standards, or requirements\n" ++
  "- Example: Brand styling with \"Brand Guidelines\" → \"Colors\" → \"Typography\"\n" ++
  "- Structure: ## Overview → ## Guidelines → ## Specifications → ## Usage...\n" ++
  "\n" ++
  "**4. Capabilities-Based** (best for integrated systems)\n" ++
  "- Works well when the skill provides multiple interrelated features\n" ++
  "- Example: Data analysis with numbered capability list\n" ++
  "- Structure: ## Overview → ## Core Capabilities → ### 1. Feature → ### 2. Feature...\n" ++
  "\n" ++
  "Patterns can be mixed and matched. Most skills combine patterns.\n" ++
  "\n" ++
  "Delete this entire \"Structuring This Skill\" section when done - it\x27s just guidance.]\n" ++
  "\n" ++
  "## Resources\n" ++
  "\n" ++
  "This skill includes example resource directories. Customize or delete as needed:\n" ++
  "\n" ++
  "### scripts/\n" ++
  "Executable code (Python/Bash/etc.) for deterministic operations.\n" ++
  "- See `scripts/example.py` for a starter template\n" ++
  "- **When to use:** Math, file parsing, API calls, automation\n" ++
  "\n" ++
  "### references/\n" ++
  "Documentation loaded into context to inform the agent\x27s thinking.\n" ++
  "- See `references/example_reference.md` for structure suggestions\n" ++
  "- **When to use:** API docs, schemas, detailed guides, domain knowledge\n" ++
  "- **Tip:** For large files (>10k words), mention grep patterns in this SKILL.md\n" ++
  "\n" ++
  "### assets/\n" ++
  "Files used in output (templates, images, fonts) - NOT loaded into context.\n" ++
  "- See `assets/README.md` for explanation\n" ++
  "- **When to use:** Boilerplate code, templates, images, fonts\n" ++
  "\n" ++
  "**Delete any unneeded directories.** Not every skill requires all three.\n" ++
  "\n" ++
  "## [TODO: Replace with your main section]\n" ++
  "\n" ++
  "[TODO: Add your skill\x27s core content here. Consider:\n" ++
  "- Code samples for technical skills (see `references/output-patterns.md` for patterns)\n" ++
  "- Decision trees for complex workflows (see `references/workflows.md`)\n" ++
  "- Concrete examples with realistic user requests\n" ++
  "- References to scripts/templates/references as needed]\n" ++
  "\n" ++
  "## Next Steps\n" ++
  "\n" ++
  "After creating this skill:\n" ++
  "1. Complete all TODO items in this file\n" ++
  "2. Update the description to be specific and keyword-rich\n" ++
  "3. Customize or delete example files in scripts/, references/, and assets/\n" ++
  "4. Run validation: `python3 scripts/validate_skill.py --path .github/skills/"

def SKILL_MD_TEMPLATE_3 : String :=
  "`\n" ++
  "5. Test the skill with real use cases\n" ++
  "6. Iterate based on feedback\n"

def EXAMPLE_SCRIPT_TEMPLATE_0 : String :=
  "#!/usr/bin/env python3\n" ++
  "\"\"\"\n" ++
  "Example helper script for "

def EXAMPLE_SCRIPT_TEMPLATE_1 : String :=
  "\n" ++
  "\n" ++
  "This is a placeholder demonstrating how to structure executable scripts.\n" ++
  "Replace with actual implementation or delete if not needed.\n" ++
  "\n" ++
  "Example real scripts from other skills:\n" ++
  "- Data processing: Parse CSV, transform JSON, aggregate results\n" ++
  "- File operations: Convert formats, merge files, validate structure\n" ++
  "- API interaction: Fetch data, authenticate, handle rate limits\n" ++
  "\n" ++
  "Usage:\n" ++
  "    python3 scripts/example.py --arg value\n" ++
  "\"\"\"\n" ++
  "\n" ++
  "import argparse\n" ++
  "import sys\n" ++
  "\n" ++
  "def main():\n" ++
  "    parser = argparse.ArgumentParser(description=\"Example script for "

def EXAMPLE_SCRIPT_TEMPLATE_2 : String :=
  "\")\n" ++
  "    parser.add_argument(\"--arg\", help=\"Example argument\", required=False)\n" ++
  "    args = parser.parse_args()\n" ++
  "    \n" ++
  "    print(f\"Example script executed for "

def EXAMPLE_SCRIPT_TEMPLATE_3 : String :=
  "\")\n" ++
  "    print(f\"Argument: \x7bargs.arg\x7d\")\n" ++
  "    \n" ++
  "    # TODO: Add actual script logic here\n" ++
  "    # This could be:\n" ++
  "    # - Data processing (pandas, numpy)\n" ++
  "    # - File conversion (pdf, docx, images)\n" ++
  "    # - API calls (requests, authentication)\n" ++
  "    # - Validation (schema checking, linting)\n" ++
  "    \n" ++
  "    return 0\n" ++
  "\n" ++
  "if __name__ == \"__main__\":\n" ++
  "    sys.exit(main())\n"

def EXAMPLE_REFERENCE_TEMPLATE_0 : String :=
  "# Reference Documentation for "

def EXAMPLE_REFERENCE_TEMPLATE_1 : String :=
  "\n" ++
  "\n" ++
  "This is a placeholder for detailed reference documentation.\n" ++
  "Replace with actual reference content or delete if not needed.\n" ++
  "\n" ++
  "## When Reference Docs Are Useful\n" ++
  "\n" ++
  "Reference docs are ideal for:\n" ++
  "- **Comprehensive guides** - Multi-page documentation that would bloat SKILL.md\n" ++
  "- **API documentation** - Endpoint specifications, parameters, examples\n" ++
  "- **Schemas** - Database schemas, data models, type definitions\n" ++
  "- **Domain knowledge** - Company policies, industry standards, legal templates\n" ++
  "- **Detailed workflows** - Step-by-step procedures with screenshots/diagrams\n" ++
  "\n" ++
  "## Structure Suggestions\n" ++
  "\n" ++
  "Choose a structure that fits your content:\n" ++
  "\n" ++
  "### API Reference Example\n" ++
  "```markdown\n" ++
  "## Authentication\n" ++
  "- Method: Bearer token\n" ++
  "- Header: `Authorization: Bearer <token>`\n" ++
  "\n" ++
  "## Endpoints\n" ++
  "\n" ++
  "### GET /api/users\n" ++
  "**Description:** Retrieve user list\n" ++
  "**Parameters:**\n" ++
  "- `page` (int, optional): Page number (default: 1)\n" ++
  "- `limit` (int, optional): Results per page (default: 20)\n" ++
  "\n" ++
  "**Response:**\n" ++
  "\\`\\`\\`json\n" ++
  "\x7b\n" ++
  "  \"users\": [...],\n" ++
  "  \"total\": 150,\n" ++
  "  \"page\": 1\n" ++
  "\x7d\n" ++
  "\\`\\`\\`\n" ++
  "\n" ++
  "**Error codes:**\n" ++
  "- 401: Unauthorized\n" ++
  "- 429: Rate limit exceeded\n" ++
  "```\n" ++
  "\n" ++
  "### Workflow Guide Example\n" ++
  "```markdown\n" ++
  "## Prerequisites\n" ++
  "- Python 3.8+\n" ++
  "- API credentials configured\n" ++
  "- Required packages: `pip install -r requirements.txt`\n" ++
  "\n" ++
  "## Step 1: Initialize Connection\n" ++
  "1. Import the client: `from myapi import Client`\n" ++
  "2. Create instance: `client = Client(api_key=\x27...\x27)`\n" ++
  "3. Test connection: `client.ping()`\n" ++
  "\n" ++
  "## Step 2: Fetch Data\n" ++
  "[Detailed instructions...]\n" ++
  "\n" ++
  "## Troubleshooting\n" ++
  "**Problem:** Connection timeout\n" ++
  "**Solution:** Check firewall settings...\n" ++
  "```\n" ++
  "\n" ++
  "### Schema Documentation Example\n" ++
  "```markdown\n" ++
  "## Database Schema\n" ++
  "\n" ++
  "### Table: users\n" ++
  "| Column | Type | Constraints | Description |\n" ++
  "|--------|------|-------------|-------------|\n" ++
  "| id | INTEGER | PRIMARY KEY | Unique user ID |\n" ++
  "| email | VARCHAR(255) | UNIQUE, NOT NULL | User email |\n" ++
  "| created_at | TIMESTAMP | DEFAULT NOW() | Registration time |\n" ++
  "\n" ++
  "### Relationships\n" ++
  "- users.id → orders.user_id (one-to-many)\n" ++
  "- users.id → profiles.user_id (one-to-one)\n" ++
  "```\n" ++
  "\n" ++
  "## Tips for Large Reference Files\n" ++
  "\n" ++
  "If this file will be >100 lines:\n" ++
  "- Include a **Table of Contents** at the top\n" ++
  "- Use clear section headers (##, ###)\n" ++
  "- Add grep hints in main SKILL.md for easier navigation\n" ++
  "\n" ++
  "## Best Practices\n" ++
  "\n" ++
  "✅ **DO:**\n" ++
  "- Keep SKILL.md lean, move details here\n" ++
  "- Use tables for structured data\n" ++
  "- Include concrete examples\n" ++
  "- Link back to SKILL.md where relevant\n" ++
  "\n" ++
  "❌ **DON\x27T:**\n" ++
  "- Duplicate content from SKILL.md\n" ++
  "- Create reference docs for <50 lines of content (put in SKILL.md)\n" ++
  "- Use vague descriptions (be specific)\n" ++
  "- Forget to mention this file exists in SKILL.md\n"

def ASSETS_README_TEMPLATE : String :=
  "# Assets Directory\n" ++
  "\n" ++
  "This directory contains files that are **used in output** - NOT loaded into context.\n" ++
  "\n" ++
  "## What Goes Here?\n" ++
  "\n" ++
  "### Templates\n" ++
  "Files that get copied or modified to create final output:\n" ++
  "- Document templates: `.docx`, `.pptx`, `.pdf`\n" ++
  "- Code boilerplate: Starter projects, directory structures\n" ++
  "- Configuration templates: `.yaml`, `.json`, `.toml`\n" ++
  "\n" ++
  "### Visual Assets\n" ++
  "Images, icons, and graphics used in generated content:\n" ++
  "- Logos: `.png`, `.svg`\n" ++
  "- Icons: `.ico`, `.svg`\n" ++
  "- Diagrams: `.png`, `.jpg`, `.svg`\n" ++
  "\n" ++
  "### Fonts\n" ++
  "Typography files for document generation:\n" ++
  "- Font files: `.ttf`, `.otf`, `.woff`, `.woff2`\n" ++
  "\n" ++
  "### Data Files\n" ++
  "Sample or seed data (not documentation):\n" ++
  "- Sample datasets: `.csv`, `.json`, `.xml`\n" ++
  "- Test fixtures: Example inputs for testing\n" ++
  "- Seed data: Initial data for databases\n" ++
  "\n" ++
  "## What Does NOT Go Here?\n" ++
  "\n" ++
  "❌ **Documentation** → Use `references/` instead  \n" ++
  "❌ **Executable code** → Use `scripts/` instead  \n" ++
  "❌ **Instructions** → Put in `SKILL.md`\n" ++
  "\n" ++
  "## Examples from Other Skills\n" ++
  "\n" ++
  "### Brand Guidelines Skill\n" ++
  "```\n" ++
  "assets/\n" ++
  "├── logo.png              # Company logo\n" ++
  "├── slides_template.pptx  # PowerPoint template\n" ++
  "└── brand_colors.json     # Color palette data\n" ++
  "```\n" ++
  "\n" ++
  "### Frontend Builder Skill\n" ++
  "```\n" ++
  "assets/\n" ++
  "└── react-starter/        # Boilerplate React project\n" ++
  "    ├── package.json\n" ++
  "    ├── src/\n" ++
  "    │   ├── App.jsx\n" ++
  "    │   └── index.js\n" ++
  "    └── public/\n" ++
  "        └── index.html\n" ++
  "```\n" ++
  "\n" ++
  "### Document Generator Skill\n" ++
  "```\n" ++
  "assets/\n" ++
  "├── contract_template.docx\n" ++
  "├── invoice_template.xlsx\n" ++
  "└── fonts/\n" ++
  "    ├── roboto-regular.ttf\n" ++
  "    └── roboto-bold.ttf\n" ++
  "```\n" ++
  "\n" ++
  "## How Agents Use Assets\n" ++
  "\n" ++
  "Agents typically:\n" ++
  "1. **Copy** the asset to a new location\n" ++
  "2. **Modify** it based on user input (fill template fields, replace placeholders)\n" ++
  "3. **Return** the modified file to the user\n" ++
  "\n" ++
  "Assets are **never loaded into context** - they\x27re treated as binary blobs that get manipulated.\n" ++
  "\n" ++
  "## Tips\n" ++
  "\n" ++
  "- Keep assets organized in subdirectories if many files\n" ++
  "- Use descriptive names: `invoice_template.xlsx` not `template1.xlsx`\n" ++
  "- Include a comment in SKILL.md about what assets exist\n" ++
  "- Remove this README if you don\x27t use assets (not every skill needs them)\n"

/-- The `description:` line of the rendered `SKILL.md` front matter
(the second line of `SKILL_MD_TEMPLATE_1`). -/
def skillMdDescLine : String :=
  "description: [TODO: Complete and informative explanation of what the skill does and when to use it. Include WHEN to use this skill - specific scenarios, file types, or tasks that trigger it.]"

/-- `title_case_skill_name` from the source: split on hyphens, capitalize
each word (Python `str.capitalize`: first character uppercased, the rest
lowercased), join with single spaces. -/
def capitalizeWord : List Char → List Char
  | [] => []
  | c :: rest => c.toUpper :: rest.map Char.toLower

def title_case_skill_name (cs : List Char) : List Char :=
  List.intercalate [' '] ((splitOnChar '-' cs).map capitalizeWord)

/-- `SKILL_MD_TEMPLATE.format(skill_name=n, skill_title=title)`. -/
def renderSkillMd (n : List Char) : List Char :=
  SKILL_MD_TEMPLATE_0.toList ++ n ++ SKILL_MD_TEMPLATE_1.toList ++
    title_case_skill_name n ++ SKILL_MD_TEMPLATE_2.toList ++ n ++
    SKILL_MD_TEMPLATE_3.toList

/-- `EXAMPLE_SCRIPT_TEMPLATE.format(skill_name=n)`. -/
def renderExampleScript (n : List Char) : List Char :=
  EXAMPLE_SCRIPT_TEMPLATE_0.toList ++ n ++ EXAMPLE_SCRIPT_TEMPLATE_1.toList ++
    n ++ EXAMPLE_SCRIPT_TEMPLATE_2.toList ++ n ++ EXAMPLE_SCRIPT_TEMPLATE_3.toList

/-- `EXAMPLE_REFERENCE_TEMPLATE.format(skill_title=title)`. -/
def renderExampleReference (title : List Char) : List Char :=
  EXAMPLE_REFERENCE_TEMPLATE_0.toList ++ title ++ EXAMPLE_REFERENCE_TEMPLATE_1.toList

/-! ## Scaffolder -/

inductive ScaffoldError
  | namingViolation
  | alreadyExists
  deriving DecidableEq

/-- Shallow embedding of `scaffold_skill` from
`assets/skills/generate-agent-skills/scripts/scaffold_skill.py`.

The skills root produced by `find_skills_dir` (an ambient git/cwd lookup,
an external boundary per spec §6/§9) is passed in as `skillsRoot`.  The
filesystem is threaded explicitly; an error return leaves it untouched,
matching the `sys.exit(1)` paths that run before any filesystem call.
`mkdir`/`write_text` are modelled as always succeeding because the model
filesystem has no permission or I/O failures; the executable bit set by
`chmod(0o755)` is not modelled (no claim concerns it). -/
def scaffold_skill (skillsRoot : FsPath) (skill_name : String) (simple_mode : Bool)
    (fs : FS) : Option ScaffoldError × FS :=
  -- 1. Validation
  if isLegalIdentifier skill_name = false then
    (some ScaffoldError.namingViolation, fs)
  else
    -- 2. Determine target directory
    let skill_path := skillsRoot ++ [skill_name]
    -- 3. Check if directory already exists
    if existsPath fs skill_path then
      (some ScaffoldError.alreadyExists, fs)
    else
      let fs := (skill_path, FsEntry.dir) :: fs
      -- 4. Create SKILL.md with rich template
      let skill_title := title_case_skill_name skill_name.toList
      let skill_content := renderSkillMd skill_name.toList
      let fs := (skill_path ++ ["SKILL.md"],
        FsEntry.file (FileData.text skill_content)) :: fs
      -- 5. Create resource directories with example files (unless simple mode)
      if simple_mode then
        (none, fs)
      else
        let fs := (skill_path ++ ["scripts"], FsEntry.dir) :: fs
        let fs := (skill_path ++ ["scripts", "example.py"],
          FsEntry.file (FileData.text (renderExampleScript skill_name.toList))) :: fs
        let fs := (skill_path ++ ["references"], FsEntry.dir) :: fs
        let fs := (skill_path ++ ["references", "example_reference.md"],
          FsEntry.file (FileData.text (renderExampleReference skill_title))) :: fs
        let fs := (skill_path ++ ["assets"], FsEntry.dir) :: fs
        let fs := (skill_path ++ ["assets", "README.md"],
          FsEntry.file (FileData.text ASSETS_README_TEMPLATE.toList)) :: fs
        (none, fs)


/-! ### NameRule characterization lemmas -/

theorem isNameChar_isNameBody {c : Char} (h : isNameChar c = true) :
    isNameBody c = true := by
  simp [isNameBody, h]

theorem isNameBody_and_isNameChar (c : Char) :
    (isNameBody c && isNameChar c) = isNameChar c := by
  cases h : isNameChar c
  · simp [h]
  · simp [isNameChar_isNameBody h]

theorem lastIsNameChar_cons_cons (c d : Char) (rest : List Char) :
    lastIsNameChar (c :: d :: rest) = lastIsNameChar (d :: rest) := by
  simp [lastIsNameChar, List.getLast?_cons_cons]

theorem tailMatch_eq (cs : List Char) :
    tailMatch cs = (cs.all isNameBody && lastIsNameChar cs) := by
  induction cs with
  | nil => simp [tailMatch, lastIsNameChar]
  | cons c rest ih =>
    cases rest with
    | nil =>
      show isNameChar c = ((isNameBody c && true) && lastIsNameChar [c])
      simp [lastIsNameChar, isNameBody_and_isNameChar]
    | cons d rest' =>
      show (isNameBody c && tailMatch (d :: rest')) = _
      rw [ih, lastIsNameChar_cons_cons]
      simp [Bool.and_assoc]

theorem coreMatch_eq_specLegalChars (cs : List Char) :
    coreMatch cs = specLegalChars cs := by
  cases cs with
  | nil => simp [coreMatch, specLegalChars]
  | cons c rest =>
    show (isNameChar c && tailMatch rest) = _
    cases rest with
    | nil =>
      simp [tailMatch, specLegalChars]
    | cons d rest' =>
      rw [tailMatch_eq]
      have hlen : decide (2 ≤ (c :: d :: rest').length) = true := by
        simp
      simp only [specLegalChars, hlen, Bool.true_and, List.all_cons,
        headIsNameChar, List.head?_cons, lastIsNameChar_cons_cons]
      cases h : isNameChar c
      · simp [h]
      · simp [h, isNameChar_isNameBody h]

/-- A name accepted by the core pattern is nonempty, consists of
alphanumerics and hyphens, and starts with an alphanumeric character. -/
theorem coreMatch_props {cs : List Char} (h : coreMatch cs = true) :
    cs ≠ [] ∧ (∀ c ∈ cs, isNameBody c = true) ∧ headIsNameChar cs = true := by
  rw [coreMatch_eq_specLegalChars] at h
  simp only [specLegalChars, Bool.and_eq_true, decide_eq_true_eq,
    List.all_eq_true] at h
  obtain ⟨⟨⟨hlen, hall⟩, hhead⟩, -⟩ := h
  refine ⟨?_, hall, hhead⟩
  intro hnil
  simp [hnil] at hlen

/-! ### Supporting lemmas: characters -/

theorem isNameBody_ne_newline {c : Char} (h : isNameBody c = true) : c ≠ '\n' := by
  intro hc
  subst hc
  exact absurd h (by decide)

theorem isNameBody_not_space {c : Char} (h : isNameBody c = true) :
    isSpaceChar c = false := by
  by_contra hs
  have hs' : isSpaceChar c = true := by
    cases hb : isSpaceChar c
    · exact absurd hb hs
    · rfl
  simp only [isSpaceChar, Bool.or_eq_true, beq_iff_eq] at hs'
  rcases hs' with ((((rfl | rfl) | rfl) | rfl) | rfl) | rfl <;>
    exact absurd h (by decide)

/-! ### Supporting lemmas: list decomposition and splitting -/

theorem getLast?_some_decomp {α : Type} :
    ∀ {l : List α} {a : α}, l.getLast? = some a → l = l.dropLast ++ [a]
  | [], a, h => by simp at h
  | [b], a, h => by simp_all
  | b :: c :: rest, a, h => by
    rw [List.getLast?_cons_cons] at h
    have ih := getLast?_some_decomp (l := c :: rest) h
    calc b :: c :: rest = b :: ((c :: rest).dropLast ++ [a]) := by rw [← ih]
    _ = (b :: c :: rest).dropLast ++ [a] := by simp

theorem reMatch_iff (cs : List Char) :
    reMatchNamePattern cs = true ↔
      coreMatch cs = true ∨ ∃ t, cs = t ++ ['\n'] ∧ coreMatch t = true := by
  unfold reMatchNamePattern
  rw [Bool.or_eq_true]
  constructor
  · rintro (h | h)
    · exact Or.inl h
    · right
      cases hl : cs.getLast? with
      | none => rw [hl] at h; simp at h
      | some c =>
        rw [hl] at h
        simp only [Bool.and_eq_true, beq_iff_eq] at h
        obtain ⟨hc, hcore⟩ := h
        subst hc
        exact ⟨cs.dropLast, getLast?_some_decomp hl, hcore⟩
  · rintro (h | ⟨t, ht, hcore⟩)
    · exact Or.inl h
    · right
      subst ht
      rw [List.getLast?_concat, List.dropLast_concat]
      simp [hcore]

theorem splitOnChar_nil (sep : Char) : splitOnChar sep [] = [[]] := rfl

theorem splitOnChar_cons_sep (sep : Char) (l : List Char) :
    splitOnChar sep (sep :: l) = [] :: splitOnChar sep l := by
  simp [splitOnChar]

theorem splitOnChar_ne_nil (sep : Char) : ∀ cs, splitOnChar sep cs ≠ []
  | [] => by simp [splitOnChar]
  | c :: rest => by
    by_cases h : c = sep
    · simp [splitOnChar, h]
    · simp only [splitOnChar, if_neg h]
      cases hs : splitOnChar sep rest with
      | nil => simp
      | cons l ls => simp

theorem splitOnChar_append_cons (sep : Char) :
    ∀ (a l : List Char), (∀ c ∈ a, c ≠ sep) →
      splitOnChar sep (a ++ sep :: l) = a :: splitOnChar sep l
  | [], l, _ => by simp [splitOnChar]
  | c :: a', l, h => by
    have hc : c ≠ sep := h c (by simp)
    have ih := splitOnChar_append_cons sep a' l (fun x hx => h x (by simp [hx]))
    simp only [List.cons_append, splitOnChar, if_neg hc, List.append_eq, ih]

theorem splitOnChar_concat_sep (sep : Char) :
    ∀ cs, splitOnChar sep (cs ++ [sep]) = splitOnChar sep cs ++ [[]]
  | [] => by simp [splitOnChar]
  | c :: rest => by
    by_cases h : c = sep
    · subst h
      simp only [List.cons_append, splitOnChar_cons_sep,
        splitOnChar_concat_sep c rest]
    · have ih := splitOnChar_concat_sep sep rest
      cases hs : splitOnChar sep rest with
      | nil => exact absurd hs (splitOnChar_ne_nil sep rest)
      | cons l ls =>
        simp only [List.cons_append, splitOnChar, if_neg h, List.append_eq, ih, hs]

theorem dropWhile_of_all_neg {p : Char → Bool} :
    ∀ {l : List Char}, (∀ c ∈ l, p c = false) → l.dropWhile p = l
  | [], _ => rfl
  | c :: rest, h => by
    rw [List.dropWhile_cons, h c (by simp)]
    simp

theorem trimChars_of_no_space {m : List Char}
    (h : ∀ c ∈ m, isSpaceChar c = false) : trimChars m = m := by
  unfold trimChars
  rw [dropWhile_of_all_neg h,
    dropWhile_of_all_neg (fun c hc => h c (by simpa using hc)),
    List.reverse_reverse]

theorem trimChars_append_newline {m : List Char} (hm : m ≠ [])
    (h : ∀ c ∈ m, isSpaceChar c = false) : trimChars (m ++ ['\n']) = m := by
  obtain ⟨c, m', rfl⟩ : ∃ c m', m = c :: m' := by
    cases m with
    | nil => exact absurd rfl hm
    | cons c m' => exact ⟨c, m', rfl⟩
  unfold trimChars
  have h1 : (c :: m' ++ ['\n']).dropWhile isSpaceChar = c :: m' ++ ['\n'] := by
    rw [List.cons_append, List.dropWhile_cons, h c (by simp)]
    simp
  rw [h1]
  have h2 : (c :: m' ++ ['\n']).reverse = '\n' :: (c :: m').reverse := by
    simp
  rw [h2, List.dropWhile_cons]
  have h3 : isSpaceChar '\n' = true := by decide
  rw [h3]
  simp only [if_true]
  rw [dropWhile_of_all_neg (fun x hx => h x (by rw [List.mem_reverse] at hx; exact hx)),
    List.reverse_reverse]

theorem stripPrefixChars_append :
    ∀ (p t : List Char), stripPrefixChars p (p ++ t) = some t
  | [], t => rfl
  | c :: p', t => by simp [stripPrefixChars, stripPrefixChars_append p' t]

/-! ### Supporting lemmas: the front-matter field scan -/

theorem matchKeyLine_nameLine (c : Char) (xs : List Char)
    (hc : isSpaceChar c = false) :
    matchKeyLine nameKey ("name: ".toList ++ (c :: xs)) = some (c :: xs) := by
  have h1 : "name: ".toList ++ (c :: xs) = (nameKey ++ [':']) ++ ([' '] ++ (c :: xs)) := by
    have e1 : "name: ".toList = ['n', 'a', 'm', 'e', ':', ' '] := by decide
    have e2 : nameKey ++ [':'] = ['n', 'a', 'm', 'e', ':'] := by decide
    rw [e1, e2]
    simp
  unfold matchKeyLine
  rw [h1, stripPrefixChars_append]
  simp only [List.singleton_append]
  rw [if_neg (by simp)]
  rw [if_neg (by simp [List.all_cons, hc])]
  rw [List.dropWhile_cons]
  rw [show isSpaceChar ' ' = true from by decide]
  simp only [if_true]
  rw [List.dropWhile_cons, hc]
  simp

theorem matchKeyLine_desc_on_nameLine (x : List Char) :
    matchKeyLine descriptionKey ("name: ".toList ++ x) = none := by
  have e1 : "name: ".toList ++ x = 'n' :: ("ame: ".toList ++ x) := by
    have e : "name: ".toList = 'n' :: "ame: ".toList := by decide
    rw [e, List.cons_append]
  have e2 : descriptionKey ++ [':'] = 'd' :: "escription:".toList := by decide
  unfold matchKeyLine
  rw [e1, e2]
  simp only [stripPrefixChars, if_neg (show ¬ ('n' : Char) = 'd' by decide)]

theorem matchKeyLine_name_dashes : matchKeyLine nameKey "---".toList = none := by
  decide

theorem matchKeyLine_desc_dashes :
    matchKeyLine descriptionKey "---".toList = none := by
  decide

theorem matchKeyLine_name_nil : matchKeyLine nameKey [] = none := by decide

theorem matchKeyLine_desc_nil : matchKeyLine descriptionKey [] = none := by decide

/-! ### Supporting lemmas: line structure of the rendered entry document -/

theorem splitOnChar_append_append_cons (sep : Char) (a b l : List Char)
    (ha : ∀ c ∈ a, c ≠ sep) (hb : ∀ c ∈ b, c ≠ sep) :
    splitOnChar sep (a ++ (b ++ sep :: l)) = (a ++ b) :: splitOnChar sep l := by
  rw [← List.append_assoc]
  refine splitOnChar_append_cons sep (a ++ b) l ?_
  intro c hc
  rcases List.mem_append.mp hc with h | h
  · exact ha c h
  · exact hb c h

theorem splitLines_skillMd (nl : List Char) (hnl : ∀ c ∈ nl, c ≠ '\n') :
    splitLines (renderSkillMd nl) =
      "---".toList :: ("name: ".toList ++ nl) :: skillMdDescLine.toList ::
        splitOnChar '\n'
          ("---\n\n# ".toList ++
            (title_case_skill_name nl ++
              (SKILL_MD_TEMPLATE_2.toList ++ (nl ++ SKILL_MD_TEMPLATE_3.toList)))) := by
  have hT0 : SKILL_MD_TEMPLATE_0.toList = "---".toList ++ '\n' :: "name: ".toList := by
    decide
  have hT1 : SKILL_MD_TEMPLATE_1.toList =
      '\n' :: (skillMdDescLine.toList ++ ('\n' :: "---\n\n# ".toList)) := by
    decide
  unfold splitLines renderSkillMd
  rw [hT0, hT1]
  simp only [List.append_assoc, List.cons_append, List.singleton_append,
    List.nil_append]
  rw [splitOnChar_append_cons '\n' "---".toList _ (by decide)]
  rw [splitOnChar_append_append_cons '\n' "name: ".toList nl _ (by decide) hnl]
  rw [splitOnChar_append_cons '\n' skillMdDescLine.toList _ (by decide)]

theorem splitLines_skillMd_newline (m : List Char) (hm : ∀ c ∈ m, c ≠ '\n') :
    splitLines (renderSkillMd (m ++ ['\n'])) =
      "---".toList :: ("name: ".toList ++ m) :: [] :: skillMdDescLine.toList ::
        splitOnChar '\n'
          ("---\n\n# ".toList ++
            (title_case_skill_name (m ++ ['\n']) ++
              (SKILL_MD_TEMPLATE_2.toList ++ (m ++ '\n' :: SKILL_MD_TEMPLATE_3.toList)))) := by
  have hT0 : SKILL_MD_TEMPLATE_0.toList = "---".toList ++ '\n' :: "name: ".toList := by
    decide
  have hT1 : SKILL_MD_TEMPLATE_1.toList =
      '\n' :: (skillMdDescLine.toList ++ ('\n' :: "---\n\n# ".toList)) := by
    decide
  unfold splitLines renderSkillMd
  rw [hT0, hT1]
  simp only [List.append_assoc, List.cons_append, List.singleton_append,
    List.nil_append]
  rw [splitOnChar_append_cons '\n' "---".toList _ (by decide)]
  rw [splitOnChar_append_append_cons '\n' "name: ".toList m _ (by decide) hm]
  rw [splitOnChar_cons_sep]
  rw [splitOnChar_append_cons '\n' skillMdDescLine.toList _ (by decide)]

/-! ### Lookup lemmas -/

theorem fsLookup_cons_eq (q : FsPath) (e : FsEntry) (rest : FS) :
    fsLookup ((q, e) :: rest) q = some e := by
  simp [fsLookup]

theorem fsLookup_cons_ne {q p : FsPath} (e : FsEntry) (rest : FS) (h : q ≠ p) :
    fsLookup ((q, e) :: rest) p = fsLookup rest p := by
  simp [fsLookup, h]

theorem string_toList_append (s t : String) :
    (s ++ t).toList = s.toList ++ t.toList :=
  String.data_append s t

/-! ## Claims -/

/-- C2, counterexample: the Python check
`re.match(r'^[a-z0-9][a-z0-9-]*[a-z0-9]$', s)` accepts the string
`"ab\n"` because `$` also matches just before a trailing newline, although
`"ab\n"` contains a character that is not a lowercase alphanumeric or a
hyphen; the claimed characterization therefore fails at `s = "ab\n"`. -/
theorem c2_nameRule_counterexample :
    isLegalIdentifier "ab\n" = true ∧ specLegal "ab\n" = false := by
  decide

/-- C2, amended: the naming check accepts `s` iff `s` satisfies the spec's
characterization (only lowercase alphanumerics and hyphens, alphanumeric
first and last characters, length at least 2) or `s` is such a string
followed by exactly one trailing newline; in particular it still rejects
"My-Skill", "-abc" and every single-character string, and accepts
"my-skill". -/
theorem c2_nameRule_characterization :
    (∀ s : String, isLegalIdentifier s = true ↔
        (specLegal s = true ∨
          ∃ t : List Char, s.toList = t ++ ['\n'] ∧ specLegalChars t = true)) ∧
    isLegalIdentifier "my-skill" = true ∧
    isLegalIdentifier "My-Skill" = false ∧
    isLegalIdentifier "-abc" = false ∧
    (∀ c : Char, isLegalIdentifier (String.mk [c]) = false) := by
  refine ⟨?_, by decide, by decide, by decide, ?_⟩
  · intro s
    unfold isLegalIdentifier specLegal
    rw [reMatch_iff]
    simp only [coreMatch_eq_specLegalChars]
  · intro c
    unfold isLegalIdentifier
    have h : (String.mk [c]).toList = [c] := rfl
    rw [h]
    unfold reMatchNamePattern
    simp [coreMatch, tailMatch]

theorem c2_nameRule_characterization_witness :
    isLegalIdentifier (String.mk ['a']) = false :=
  c2_nameRule_characterization.2.2.2.2 'a'

/-- C4: a name rejected by the NameRule makes `scaffold_skill` fail
immediately with the identifier-violation error, and the filesystem is
returned exactly as it was (no directory or file created or modified). -/
theorem c4_scaffold_illegal_name_no_mutation (skillsRoot : FsPath)
    (name : String) (simple : Bool) (fs : FS)
    (h : isLegalIdentifier name = false) :
    scaffold_skill skillsRoot name simple fs
      = (some ScaffoldError.namingViolation, fs) := by
  simp [scaffold_skill, h]

theorem c4_scaffold_illegal_name_witness :
    isLegalIdentifier "My-Skill" = false ∧
      scaffold_skill [".github", "skills"] "My-Skill" false []
        = (some ScaffoldError.namingViolation, []) :=
  ⟨by decide,
    c4_scaffold_illegal_name_no_mutation [".github", "skills"] "My-Skill" false []
      (by decide)⟩

/-- C5: for a legal name whose target package path already exists,
`scaffold_skill` fails with the already-exists error before any creation
step, and the filesystem (hence the existing package's contents) is
returned unmodified. -/
theorem c5_scaffold_refuses_overwrite (skillsRoot : FsPath) (name : String)
    (simple : Bool) (fs : FS) (hlegal : isLegalIdentifier name = true)
    (hex : existsPath fs (skillsRoot ++ [name]) = true) :
    scaffold_skill skillsRoot name simple fs
      = (some ScaffoldError.alreadyExists, fs) := by
  simp [scaffold_skill, hlegal, hex]

theorem c5_scaffold_refuses_overwrite_witness :
    isLegalIdentifier "my-skill" = true ∧
      existsPath [((["skills", "my-skill"] : FsPath), FsEntry.dir)]
        (["skills"] ++ ["my-skill"]) = true ∧
      scaffold_skill ["skills"] "my-skill" true
          [((["skills", "my-skill"] : FsPath), FsEntry.dir)]
        = (some ScaffoldError.alreadyExists,
            [((["skills", "my-skill"] : FsPath), FsEntry.dir)]) :=
  ⟨by decide, by decide,
    c5_scaffold_refuses_overwrite ["skills"] "my-skill" true
      [((["skills", "my-skill"] : FsPath), FsEntry.dir)] (by decide) (by decide)⟩

/-! ### Supporting lemmas: path-string functions -/

theorem head?_append_left {α : Type} (l r : List α) (h : l ≠ []) :
    (l ++ r).head? = l.head? := by
  cases l with
  | nil => exact absurd rfl h
  | cons c cs => rfl

theorem getLast?_append_right {α : Type} (l r : List α) (h : r ≠ []) :
    (l ++ r).getLast? = r.getLast? := by
  rw [List.getLast?_append]
  cases hr : r.getLast? with
  | none => exact absurd (List.getLast?_eq_none_iff.mp hr) h
  | some a => rfl

theorem splitOnChar_hom (sep : Char) :
    ∀ (x y : List Char),
      splitOnChar sep (x ++ sep :: y) = splitOnChar sep x ++ splitOnChar sep y
  | [], y => by simp [splitOnChar]
  | c :: x', y => by
    by_cases h : c = sep
    · subst h
      simp only [List.cons_append, splitOnChar_cons_sep, splitOnChar_hom c x' y]
    · have ih := splitOnChar_hom sep x' y
      cases hs : splitOnChar sep x' with
      | nil => exact absurd hs (splitOnChar_ne_nil sep x')
      | cons l ls =>
        rw [hs] at ih
        simp only [List.cons_append, splitOnChar, if_neg h, List.append_eq, ih,
          hs, List.cons_append]

theorem splitOnChar_no_sep (sep : Char) :
    ∀ (l : List Char), (∀ c ∈ l, c ≠ sep) → splitOnChar sep l = [l]
  | [], _ => rfl
  | c :: l', h => by
    have hc : c ≠ sep := h c (by simp)
    have ih := splitOnChar_no_sep sep l' (fun x hx => h x (by simp [hx]))
    simp only [splitOnChar, if_neg hc, List.append_eq, ih]

theorem mem_splitOnChar_no_sep (sep : Char) :
    ∀ (cs : List Char), ∀ x ∈ splitOnChar sep cs, ∀ c ∈ x, c ≠ sep
  | [], x, hx, c, hc => by
    simp [splitOnChar] at hx
    subst hx
    simp at hc
  | d :: cs', x, hx, c, hc => by
    by_cases h : d = sep
    · rw [h, splitOnChar_cons_sep] at hx
      rcases List.mem_cons.mp hx with rfl | hx
      · simp at hc
      · exact mem_splitOnChar_no_sep sep cs' x hx c hc
    · rw [show splitOnChar sep (d :: cs')
          = (match splitOnChar sep cs' with
             | [] => [[d]]
             | l :: ls => (d :: l) :: ls) from by
        simp [splitOnChar, if_neg h]] at hx
      cases hs : splitOnChar sep cs' with
      | nil => exact absurd hs (splitOnChar_ne_nil sep cs')
      | cons l ls =>
        rw [hs] at hx
        rcases List.mem_cons.mp hx with rfl | hx
        · rcases List.mem_cons.mp hc with rfl | hc
          · exact h
          · exact mem_splitOnChar_no_sep sep cs' l (hs ▸ List.mem_cons_self l ls) c hc
        · exact mem_splitOnChar_no_sep sep cs' x (hs ▸ List.mem_cons_of_mem l hx) c hc

theorem takeWhile_all_pos {p : Char → Bool} :
    ∀ {l : List Char}, (∀ c ∈ l, p c = true) → l.takeWhile p = l
  | [], _ => rfl
  | c :: l', h => by
    rw [List.takeWhile_cons, h c (by simp)]
    simp only [if_true]
    rw [takeWhile_all_pos (fun x hx => h x (by simp [hx]))]

theorem takeWhile_append_stop {p : Char → Bool} (a : List Char) (c0 : Char)
    (l : List Char) (ha : ∀ c ∈ a, p c = true) (hc : p c0 = false) :
    (a ++ c0 :: l).takeWhile p = a := by
  induction a with
  | nil => simp [List.takeWhile_cons, hc]
  | cons c a' ih =>
    rw [List.cons_append, List.takeWhile_cons, ha c (by simp)]
    simp only [if_true]
    rw [ih (fun x hx => ha x (by simp [hx]))]

theorem basename_no_slash {l : List Char} (h : ∀ c ∈ l, c ≠ '/') :
    basenameChars l = l := by
  unfold basenameChars
  rw [takeWhile_all_pos, List.reverse_reverse]
  intro c hc
  rw [List.mem_reverse] at hc
  simpa using h c hc

theorem basename_append_slash_cons (X : List Char) {l : List Char}
    (h : ∀ c ∈ l, c ≠ '/') : basenameChars (X ++ '/' :: l) = l := by
  unfold basenameChars
  have hr : (X ++ '/' :: l).reverse = l.reverse ++ '/' :: X.reverse := by
    simp
  rw [hr, takeWhile_append_stop _ '/' _ ?_ (by decide), List.reverse_reverse]
  intro c hc
  rw [List.mem_reverse] at hc
  simpa using h c hc

theorem basename_replicate_slash (j : Nat) :
    basenameChars (List.replicate (j + 1) '/') = [] := by
  unfold basenameChars
  rw [List.reverse_replicate, List.replicate_succ, List.takeWhile_cons]
  simp

theorem joinSlash_append_single :
    ∀ (xs : List (List Char)) (y : List Char), xs ≠ [] →
      joinSlash (xs ++ [y]) = joinSlash xs ++ '/' :: y
  | [], _, h => absurd rfl h
  | [x], y, _ => by simp [joinSlash]
  | x :: x2 :: xs', y, _ => by
    have ih := joinSlash_append_single (x2 :: xs') y (by simp)
    show x ++ '/' :: joinSlash ((x2 :: xs') ++ [y]) = (x ++ '/' :: joinSlash (x2 :: xs')) ++ '/' :: y
    rw [ih]
    simp

theorem basename_slashes_join (i : Nat) (ns : List (List Char))
    {l : List Char} (hl : l ≠ []) (hls : ∀ c ∈ l, c ≠ '/') :
    basenameChars (List.replicate i '/' ++ joinSlash (ns ++ [l])) = l ∧
      List.replicate i '/' ++ joinSlash (ns ++ [l]) ≠ [] := by
  cases ns with
  | nil =>
    rw [show joinSlash ([] ++ [l]) = l from rfl]
    cases i with
    | zero =>
      simp only [List.replicate_zero, List.nil_append]
      exact ⟨basename_no_slash hls, hl⟩
    | succ j =>
      rw [List.replicate_succ', List.append_assoc, List.singleton_append]
      exact ⟨basename_append_slash_cons _ hls, by simp⟩
  | cons m ms =>
    rw [joinSlash_append_single (m :: ms) l (by simp), ← List.append_assoc]
    exact ⟨basename_append_slash_cons _ hls, by simp⟩

/-! ### Supporting lemmas: `normpath` and the derived directory name -/

theorem normComp_nil_comp (i : Nat) (acc : List (List Char)) :
    normComp i acc [] = acc := by
  simp [normComp]

theorem foldl_normComp_replicate_nil (i : Nat) (A : List (List Char)) :
    ∀ k, List.foldl (normComp i) A (List.replicate k []) = A
  | 0 => rfl
  | k + 1 => by
    rw [List.replicate_succ, List.foldl_cons, normComp_nil_comp]
    exact foldl_normComp_replicate_nil i A k

theorem mem_foldl_normComp (i : Nat) :
    ∀ (comps acc : List (List Char)) (x : List Char),
      x ∈ List.foldl (normComp i) acc comps → x ∈ acc ∨ (x ∈ comps ∧ x ≠ [])
  | [], _, _, hx => Or.inl hx
  | c :: comps', acc, x, hx => by
    rw [List.foldl_cons] at hx
    rcases mem_foldl_normComp i comps' (normComp i acc c) x hx with h | ⟨h1, h2⟩
    · unfold normComp at h
      split_ifs at h with g1 g2
      · exact Or.inl h
      · rcases List.mem_append.mp h with h | h
        · exact Or.inl h
        · simp only [List.mem_singleton] at h
          subst h
          exact Or.inr ⟨by simp, fun hc => g1 (Or.inl hc)⟩
      · exact Or.inl (List.dropLast_subset _ h)
    · exact Or.inr ⟨by simp [h1], h2⟩

theorem normComp_congr_zero {i j : Nat} (h : (i = 0) ↔ (j = 0))
    (acc : List (List Char)) (c : List Char) :
    normComp i acc c = normComp j acc c := by
  unfold normComp
  by_cases g1 : c = [] ∨ c = ['.']
  · rw [if_pos g1, if_pos g1]
  · rw [if_neg g1, if_neg g1]
    by_cases g2 : c ≠ ['.', '.'] ∨ i = 0 ∧ acc = [] ∨ acc.getLast? = some ['.', '.']
    · rw [if_pos g2, if_pos (by tauto)]
    · rw [if_neg g2, if_neg (by tauto)]

theorem foldl_normComp_congr {i j : Nat} (h : (i = 0) ↔ (j = 0)) :
    ∀ (comps A : List (List Char)),
      List.foldl (normComp i) A comps = List.foldl (normComp j) A comps
  | [], _ => rfl
  | c :: cs, A => by
    rw [List.foldl_cons, List.foldl_cons, normComp_congr_zero h,
      foldl_normComp_congr h cs _]

theorem initialSlashesOf_zero_iff (p : List Char) :
    initialSlashesOf p = 0 ↔ ¬ p.head? = some '/' := by
  unfold initialSlashesOf
  split_ifs with h1 h2
  · simp [h1]
  · simp [h1]
  · simp [h1]

theorem splitOnChar_append_replicate (sep : Char) (cs : List Char) :
    ∀ k, splitOnChar sep (cs ++ List.replicate k sep)
      = splitOnChar sep cs ++ List.replicate k []
  | 0 => by simp
  | k + 1 => by
    rw [List.replicate_succ', ← List.append_assoc, splitOnChar_concat_sep,
      splitOnChar_append_replicate sep cs k]
    rw [show (List.replicate (k + 1) ([] : List Char))
        = List.replicate k [] ++ [[]] from List.replicate_succ' k []]
    rw [List.append_assoc]

theorem newCompsOf_append_slashes (cs : List Char) (hcs : cs ≠ []) (k : Nat) :
    newCompsOf (cs ++ List.replicate k '/') = newCompsOf cs := by
  unfold newCompsOf
  rw [splitOnChar_append_replicate, List.foldl_append, foldl_normComp_replicate_nil]
  apply foldl_normComp_congr
  rw [initialSlashesOf_zero_iff, initialSlashesOf_zero_iff,
    head?_append_left cs _ hcs]

theorem basename_normpath_append_slashes (cs : List Char) (hcs : cs ≠ [])
    (k : Nat) :
    basenameChars (normpathChars (cs ++ List.replicate k '/'))
      = basenameChars (normpathChars cs) := by
  have hne : cs ++ List.replicate k '/' ≠ [] := by simp [hcs]
  have hz : (initialSlashesOf (cs ++ List.replicate k '/') = 0)
      ↔ (initialSlashesOf cs = 0) := by
    rw [initialSlashesOf_zero_iff, initialSlashesOf_zero_iff,
      head?_append_left cs _ hcs]
  simp only [normpathChars]
  rw [if_neg hne, if_neg hcs, newCompsOf_append_slashes cs hcs k]
  cases hNN : newCompsOf cs with
  | nil =>
    simp only [joinSlash, List.append_nil]
    cases hi : initialSlashesOf (cs ++ List.replicate k '/') with
    | zero =>
      rw [hz.mp hi]
    | succ i' =>
      cases hj : initialSlashesOf cs with
      | zero =>
        rw [← hi]
        exact absurd (hz.mpr hj) (by simp [hi])
      | succ j' =>
        rw [if_neg (by simp), if_neg (by simp)]
        rw [basename_replicate_slash, basename_replicate_slash]
  | cons n0 ns0 =>
    obtain ⟨l, hl⟩ : ∃ l, (n0 :: ns0).getLast? = some l :=
      ⟨(n0 :: ns0).getLast (by simp), List.getLast?_eq_getLast _ _⟩
    have hmem : l ∈ newCompsOf cs := by
      rw [hNN, getLast?_some_decomp hl]
      exact List.mem_append.mpr (Or.inr (by simp))
    have hprops : l ≠ [] ∧ ∀ c ∈ l, c ≠ '/' := by
      rcases mem_foldl_normComp _ _ _ _ hmem with h | ⟨h1, h2⟩
      · simp at h
      · exact ⟨h2, mem_splitOnChar_no_sep '/' cs l h1⟩
    have hdecomp : n0 :: ns0 = (n0 :: ns0).dropLast ++ [l] :=
      getLast?_some_decomp hl
    rw [hdecomp]
    obtain ⟨hb1, hne1⟩ := basename_slashes_join
      (initialSlashesOf (cs ++ List.replicate k '/')) (n0 :: ns0).dropLast
      hprops.1 hprops.2
    obtain ⟨hb2, hne2⟩ := basename_slashes_join
      (initialSlashesOf cs) (n0 :: ns0).dropLast hprops.1 hprops.2
    rw [if_neg hne1, if_neg hne2, hb1, hb2]

theorem basename_normpath_comp (root : List Char) {nl : List Char}
    (hne : nl ≠ []) (hslash : ∀ c ∈ nl, c ≠ '/')
    (hdot : nl ≠ ['.']) (hdd : nl ≠ ['.', '.']) :
    basenameChars (normpathChars (root ++ '/' :: nl)) = nl := by
  have hp : root ++ '/' :: nl ≠ [] := by simp
  have hsplit : splitOnChar '/' (root ++ '/' :: nl)
      = splitOnChar '/' root ++ [nl] := by
    rw [splitOnChar_hom, splitOnChar_no_sep '/' nl hslash]
  have hnew : newCompsOf (root ++ '/' :: nl)
      = (splitOnChar '/' root).foldl
          (normComp (initialSlashesOf (root ++ '/' :: nl))) [] ++ [nl] := by
    unfold newCompsOf
    rw [hsplit, List.foldl_append, List.foldl_cons, List.foldl_nil]
    unfold normComp
    rw [if_neg (by simp [hne, hdot]), if_pos (Or.inl hdd)]
  simp only [normpathChars]
  rw [if_neg hp, hnew]
  obtain ⟨hb, hnej⟩ := basename_slashes_join
    (initialSlashesOf (root ++ '/' :: nl))
    ((splitOnChar '/' root).foldl
      (normComp (initialSlashesOf (root ++ '/' :: nl))) []) hne hslash
  rw [if_neg hnej, hb]

/-! ### Supporting lemmas: path parsing and joining -/

theorem string_mk_toList (s : String) : String.mk s.toList = s := rfl

theorem pathComps_nil : pathComps [] = [] := rfl

theorem pathComps_hom (x y : List Char) :
    pathComps (x ++ '/' :: y) = pathComps x ++ pathComps y := by
  unfold pathComps
  rw [splitOnChar_hom, List.filter_append, List.map_append]

theorem pathComps_append_replicate (cs : List Char) (k : Nat) :
    pathComps (cs ++ List.replicate k '/') = pathComps cs := by
  unfold pathComps
  rw [splitOnChar_append_replicate, List.filter_append]
  have h : List.filter (fun l => !l.isEmpty) (List.replicate k ([] : List Char))
      = [] := by
    induction k with
    | zero => rfl
    | succ k ih =>
      rw [List.replicate_succ, List.filter_cons]
      simp [ih]
  rw [h, List.append_nil]

theorem pathComps_single {l : List Char} (hne : l ≠ [])
    (h : ∀ c ∈ l, c ≠ '/') : pathComps l = [String.mk l] := by
  unfold pathComps
  rw [splitOnChar_no_sep '/' l h]
  have hl : l.isEmpty = false := by
    cases l with
    | nil => exact absurd rfl hne
    | cons c cs => rfl
  simp [hl]

theorem pathComps_join {p b : List Char} (hb : ¬ b.head? = some '/') :
    pathComps (joinPathChars p b) = pathComps p ++ pathComps b := by
  unfold joinPathChars
  rw [if_neg hb]
  by_cases hp : p = [] ∨ p.getLast? = some '/'
  · rw [if_pos hp]
    rcases hp with rfl | hp
    · rw [List.nil_append, pathComps_nil, List.nil_append]
    · have hdecomp : p = p.dropLast ++ ['/'] := getLast?_some_decomp hp
      have h1 : pathComps (p ++ b) = pathComps p.dropLast ++ pathComps b := by
        conv_lhs => rw [hdecomp]
        rw [List.append_assoc, List.singleton_append, pathComps_hom]
      have h2 : pathComps p = pathComps p.dropLast := by
        conv_lhs => rw [hdecomp]
        rw [show (['/'] : List Char) = List.replicate 1 '/' from rfl,
          pathComps_append_replicate]
      rw [h1, h2]
  · rw [if_neg hp, pathComps_hom]

/-! ### Supporting lemmas: name characters and paths -/

theorem isNameBody_ne_slash {c : Char} (h : isNameBody c = true) : c ≠ '/' := by
  intro hc
  subst hc
  exact absurd h (by decide)

theorem coreMatch_ne_dots {cs : List Char} (h : coreMatch cs = true) :
    cs ≠ ['.'] ∧ cs ≠ ['.', '.'] := by
  obtain ⟨-, hall, -⟩ := coreMatch_props h
  constructor
  · intro hc
    exact absurd (hall '.' (by simp [hc])) (by decide)
  · intro hc
    exact absurd (hall '.' (by simp [hc])) (by decide)

/-- The scaffolded entry document passes the real metadata checks for every
name matching the core pattern (no trailing newline): the first `name:`
line carries exactly the requested name, which stripped equals the
directory name, and the `description:` line is present. -/
theorem metadataErrors_skillMd (n : String) (hcore : coreMatch n.toList = true) :
    metadataErrors n (renderSkillMd n.toList) = [] := by
  obtain ⟨hne, hall, hhead⟩ := coreMatch_props hcore
  obtain ⟨c, xs, hcx⟩ : ∃ c xs, n.toList = c :: xs := by
    cases hnl : n.toList with
    | nil => exact absurd hnl hne
    | cons c xs => exact ⟨c, xs, rfl⟩
  have hc : isNameChar c = true := by
    rw [hcx] at hhead
    simpa [headIsNameChar] using hhead
  have hcspace : isSpaceChar c = false :=
    isNameBody_not_space (isNameChar_isNameBody hc)
  have hnonl : ∀ ch ∈ n.toList, ch ≠ '\n' :=
    fun ch hch => isNameBody_ne_newline (hall ch hch)
  have hns : ∀ ch ∈ (c :: xs), isSpaceChar ch = false := by
    rw [← hcx]
    exact fun ch hch => isNameBody_not_space (hall ch hch)
  have ht : String.mk (trimChars (c :: xs)) = n := by
    rw [trimChars_of_no_space hns, ← hcx]
    exact string_mk_toList n
  unfold metadataErrors
  rw [splitLines_skillMd n.toList hnonl, hcx]
  simp only [findField, matchKeyLine_name_dashes,
    matchKeyLine_nameLine c xs hcspace, matchKeyLine_desc_dashes,
    matchKeyLine_desc_on_nameLine]
  rw [if_pos ht, List.nil_append]
  cases hdl : matchKeyLine descriptionKey skillMdDescLine.toList with
  | none => exact absurd hdl (by decide)
  | some v => simp only [hdl]

/-! ### Glue lemmas for the claims -/

theorem namingErrors_eq_nil {sd : String}
    (h : reMatchNamePattern sd.toList = true) : namingErrors sd = [] := by
  simp [namingErrors, show reMatchNamePattern sd.data = true from h]

theorem reMatch_of_coreMatch {cs : List Char} (h : coreMatch cs = true) :
    reMatchNamePattern cs = true := by
  simp [reMatchNamePattern, h]

/-! ## Claims (continued) -/

/-- C3, code bug: `validate_skill.py` reads `SKILL.md` with no exception
handling (lines 24–25), so an entry document that exists but cannot be
decoded as text crashes the run with an uncaught `UnicodeDecodeError`; no
"cannot read entry document" finding exists anywhere in the code and no
report is produced, contradicting the claim and spec §4.2's failure-modes
clause. -/
theorem c3_undecodable_crash :
    validate_skill
      [((["my-skill"] : FsPath), FsEntry.dir),
       ((["my-skill", "SKILL.md"] : FsPath), FsEntry.file FileData.binary)]
      "my-skill" = Except.error PyError.unicodeDecodeError := by
  decide

/-- C6: for an existing directory whose base name passes the naming check
and which has no `SKILL.md`, the run reports exactly the
missing-entry-point error — so no metadata finding is produced — and the
exit code is 1. -/
theorem c6_missing_entry_document (fs : FS) (p : String)
    (_hdir : fsLookup fs (parsePath p) = some FsEntry.dir)
    (hname : reMatchNamePattern (skill_dir_of p).toList = true)
    (hdoc : fsLookup fs (parsePath (joinPath p "SKILL.md")) = none) :
    validate_skill fs p
        = Except.ok
            { errors := ["Missing SKILL.md (The mandatory entry point)."]
              warnings := warningsOf fs p } ∧
      exitCode
          { errors := ["Missing SKILL.md (The mandatory entry point)."]
            warnings := warningsOf fs p } = 1 := by
  constructor
  · simp only [validate_skill, contentErrors, hdoc,
      namingErrors_eq_nil hname, List.nil_append]
  · simp [exitCode]

theorem c6_missing_entry_document_witness :
    validate_skill [((["empty-pkg"] : FsPath), FsEntry.dir)] "empty-pkg"
        = Except.ok
            { errors := ["Missing SKILL.md (The mandatory entry point)."]
              warnings := warningsOf [((["empty-pkg"] : FsPath), FsEntry.dir)]
                "empty-pkg" } ∧
      exitCode
          { errors := ["Missing SKILL.md (The mandatory entry point)."]
            warnings := warningsOf [((["empty-pkg"] : FsPath), FsEntry.dir)]
              "empty-pkg" } = 1 :=
  c6_missing_entry_document [((["empty-pkg"] : FsPath), FsEntry.dir)] "empty-pkg"
    (by decide) (by decide) (by decide)

/-- C7, counterexample: for a package whose identifier fails the NameRule
but whose `SKILL.md` cannot be decoded, the unguarded read crashes the run,
so the CRITICAL naming violation that is present is never recorded in any
report — the claim's "a single run reports every CRITICAL violation
present" fails. -/
theorem c7_counterexample :
    namingErrors (skill_dir_of "My-Skill") ≠ [] ∧
      validate_skill
        [((["My-Skill"] : FsPath), FsEntry.dir),
         ((["My-Skill", "SKILL.md"] : FsPath), FsEntry.file FileData.binary)]
        "My-Skill" = Except.error PyError.unicodeDecodeError := by
  decide

/-- C7, amended: for every package path whose derived identifier fails the
NameRule and whose entry-point check completes without crashing (the
entry document, if present, is a readable text file), the run records the
CRITICAL naming finding first, followed by the findings of the
entry-document and metadata checks, with the advisory checks still
performed. -/
theorem c7_naming_violation_not_short_circuiting (fs : FS) (p : String)
    (errs : List String)
    (h : reMatchNamePattern (skill_dir_of p).toList = false)
    (hread : contentErrors fs p (skill_dir_of p) = Except.ok errs) :
    validate_skill fs p
      = Except.ok
          { errors := "Directory name violates regex (lowercase/hyphens only)."
              :: errs
            warnings := warningsOf fs p } := by
  simp only [validate_skill, hread, namingErrors, h, Bool.false_eq_true,
    if_false, List.singleton_append]

theorem c7_naming_violation_witness :
    validate_skill [((["My-Skill"] : FsPath), FsEntry.dir)] "My-Skill"
      = Except.ok
          { errors := ["Directory name violates regex (lowercase/hyphens only).",
              "Missing SKILL.md (The mandatory entry point)."]
            warnings := warningsOf [((["My-Skill"] : FsPath), FsEntry.dir)]
              "My-Skill" } :=
  c7_naming_violation_not_short_circuiting
    [((["My-Skill"] : FsPath), FsEntry.dir)] "My-Skill"
    ["Missing SKILL.md (The mandatory entry point)."] (by decide) rfl

/-- C8, counterexample: a package whose front matter has a mismatching
`name` but no `description` gets TWO CRITICAL findings, not "exactly one";
the mismatch message quotes the stripped front-matter value and the
directory name. -/
theorem c8_counterexample :
    findField nameKey (splitLines ("---\nname: other-name\n---\n".toList))
        = some ("other-name".toList) ∧
      validate_skill
        [((["my-skill"] : FsPath), FsEntry.dir),
         ((["my-skill", "SKILL.md"] : FsPath),
           FsEntry.file (FileData.text ("---\nname: other-name\n---\n".toList)))]
        "my-skill"
      = Except.ok
          { errors := ["YAML name \x27other-name\x27 mismatches directory \x27my-skill\x27.",
              "YAML frontmatter missing \x27description\x27 field."]
            warnings := ["No \x27references/\x27 directory found. (Acceptable for simple skills).",
              "No \x27scripts/\x27 directory found. (Acceptable for pure-prompt skills)."] } := by
  constructor
  · rfl
  · rfl

/-- C8, amended: when the entry document parses, its `name` field strips to
`other-name` while the directory is `my-skill`, and a `description` field
is present, the run reports exactly one CRITICAL finding — the mismatch —
whose message contains both the front-matter value and the directory
name. -/
theorem c8_metadata_mismatch (fs : FS) (p : String) (content v : List Char)
    (hbase : skill_dir_of p = "my-skill")
    (hdoc : fsLookup fs (parsePath (joinPath p "SKILL.md"))
        = some (FsEntry.file (FileData.text content)))
    (hname : findField nameKey (splitLines content) = some v)
    (htrim : trimChars v = "other-name".toList)
    (hdesc : findField descriptionKey (splitLines content) ≠ none) :
    validate_skill fs p
        = Except.ok
            { errors := [yamlMismatchMsg (String.mk (trimChars v)) "my-skill"]
              warnings := warningsOf fs p } ∧
      (∃ a b : String, yamlMismatchMsg (String.mk (trimChars v)) "my-skill"
          = a ++ "other-name" ++ b) ∧
      (∃ a b : String, yamlMismatchMsg (String.mk (trimChars v)) "my-skill"
          = a ++ "my-skill" ++ b) := by
  refine ⟨?_, ?_, ?_⟩
  · have hmeta : metadataErrors "my-skill" content
        = [yamlMismatchMsg (String.mk (trimChars v)) "my-skill"] := by
      unfold metadataErrors
      simp only [hname]
      rw [if_neg (by rw [htrim]; decide)]
      cases hd : findField descriptionKey (splitLines content) with
      | none => exact absurd hd hdesc
      | some d => simp [hd]
    have hn0 : namingErrors "my-skill" = [] := by decide
    simp only [validate_skill, contentErrors, hbase, hdoc, hmeta, hn0,
      List.nil_append]
  · refine ⟨"YAML name \x27", "\x27 mismatches directory \x27my-skill\x27.", ?_⟩
    unfold yamlMismatchMsg
    rw [htrim]
    rfl
  · refine ⟨"YAML name \x27other-name\x27 mismatches directory \x27", "\x27.", ?_⟩
    unfold yamlMismatchMsg
    rw [htrim]
    rfl

theorem c8_metadata_mismatch_witness :
    validate_skill
        [((["my-skill"] : FsPath), FsEntry.dir),
         ((["my-skill", "SKILL.md"] : FsPath),
           FsEntry.file (FileData.text
             ("---\nname: other-name\ndescription: does things\n---\n".toList)))]
        "my-skill"
      = Except.ok
          { errors := [yamlMismatchMsg
              (String.mk (trimChars ("other-name".toList))) "my-skill"]
            warnings := warningsOf
              [((["my-skill"] : FsPath), FsEntry.dir),
               ((["my-skill", "SKILL.md"] : FsPath),
                 FsEntry.file (FileData.text
                   ("---\nname: other-name\ndescription: does things\n---\n".toList)))]
              "my-skill" } :=
  (c8_metadata_mismatch
      [((["my-skill"] : FsPath), FsEntry.dir),
       ((["my-skill", "SKILL.md"] : FsPath),
         FsEntry.file (FileData.text
           ("---\nname: other-name\ndescription: does things\n---\n".toList)))]
      "my-skill"
      ("---\nname: other-name\ndescription: does things\n---\n".toList)
      ("other-name".toList)
      (by decide) rfl rfl (by decide) (by decide)).1

/-- C9, counterexample: for a package with an identifier violation and an
undecodable `SKILL.md`, the run neither prints a report nor exits: it
crashes, so the claimed "exit code reflects the findings and every finding
is printed" behavior does not hold on every input. -/
theorem c9_counterexample :
    namingErrors (skill_dir_of "Bad_Name") ≠ [] ∧
      validate_skill
        [((["Bad_Name"] : FsPath), FsEntry.dir),
         ((["Bad_Name", "SKILL.md"] : FsPath), FsEntry.file FileData.binary)]
        "Bad_Name" = Except.error PyError.unicodeDecodeError := by
  decide

/-- C9, amended: whenever a run completes and produces a report, the exit
code is 0 exactly when there is no error; on a FAIL only the errors are
printed, on a PASS the errors (none) are followed by the warnings; and the
fully valid package yields an empty error list, the two advisory warnings
(references first, then scripts), and exit code 0. -/
theorem c9_exit_code_and_visibility :
    (∀ (fs : FS) (p : String) (r : Report), validate_skill fs p = Except.ok r →
        (exitCode r = 0 ↔ r.errors = [])) ∧
    (∀ (fs : FS) (p : String) (r : Report), validate_skill fs p = Except.ok r →
        statusPass r = false → printedFindings r = r.errors) ∧
    (∀ (fs : FS) (p : String) (r : Report), validate_skill fs p = Except.ok r →
        statusPass r = true → printedFindings r = r.errors ++ r.warnings) ∧
    validate_skill
        [((["my-skill"] : FsPath), FsEntry.dir),
         ((["my-skill", "SKILL.md"] : FsPath),
           FsEntry.file (FileData.text
             ("---\nname: my-skill\ndescription: fills forms\n---\n".toList)))]
        "my-skill"
      = Except.ok
          { errors := []
            warnings :=
              ["No \x27references/\x27 directory found. (Acceptable for simple skills).",
               "No \x27scripts/\x27 directory found. (Acceptable for pure-prompt skills)."] } ∧
    exitCode
        { errors := ([] : List String)
          warnings :=
            ["No \x27references/\x27 directory found. (Acceptable for simple skills).",
             "No \x27scripts/\x27 directory found. (Acceptable for pure-prompt skills)."] }
      = 0 := by
  refine ⟨?_, ?_, ?_, by decide, by decide⟩
  · intro fs p r _
    cases hc : r.errors with
    | nil => simp [exitCode, hc]
    | cons a l => simp [exitCode, hc]
  · intro fs p r _ hp
    have h : r.errors.isEmpty = false := by simpa [statusPass] using hp
    simp [printedFindings, h]
  · intro fs p r _ hp
    have h : r.errors.isEmpty = true := by simpa [statusPass] using hp
    simp [printedFindings, h]

theorem c9_exit_code_and_visibility_witness :
    printedFindings
        { errors := ["Directory name violates regex (lowercase/hyphens only).",
            "Missing SKILL.md (The mandatory entry point)."]
          warnings :=
            ["No \x27references/\x27 directory found. (Acceptable for simple skills).",
             "No \x27scripts/\x27 directory found. (Acceptable for pure-prompt skills)."] }
      = ["Directory name violates regex (lowercase/hyphens only).",
          "Missing SKILL.md (The mandatory entry point)."] :=
  c9_exit_code_and_visibility.2.1 [] "My-Skill"
    { errors := ["Directory name violates regex (lowercase/hyphens only).",
        "Missing SKILL.md (The mandatory entry point)."]
      warnings :=
        ["No \x27references/\x27 directory found. (Acceptable for simple skills).",
         "No \x27scripts/\x27 directory found. (Acceptable for pure-prompt skills)."] }
    (by decide) (by decide)

/-- C10, counterexample: appending a single separator to the empty package
path changes the derived identifier — `basename(normpath(""))` is `"."`
while `basename(normpath("/"))` is `""` — so the claim's "any number of
trailing separators" fails at the empty path. -/
theorem c10_counterexample :
    skill_dir_of ("" ++ "/") ≠ skill_dir_of "" ∧
      skill_dir_of "" = "." ∧ skill_dir_of ("" ++ "/") = "" := by
  decide

/-- C10, amended: for every non-empty package path, appending any number of
trailing `/` separators changes neither the derived identifier nor any
lookup the run performs: the whole validation result is unchanged. -/
theorem c10_trailing_separators (fs : FS) (s : String) (k : Nat)
    (hs : s ≠ "") :
    validate_skill fs (s ++ String.mk (List.replicate k '/'))
      = validate_skill fs s := by
  have hcs : s.toList ≠ [] := by
    intro h
    exact hs (by rw [← string_mk_toList s, h])
  have htl : (s ++ String.mk (List.replicate k '/')).toList
      = s.toList ++ List.replicate k '/' := by
    rw [string_toList_append]
    rfl
  have hid : skill_dir_of (s ++ String.mk (List.replicate k '/'))
      = skill_dir_of s := by
    unfold skill_dir_of
    rw [htl, basename_normpath_append_slashes s.toList hcs k]
  have hjoin : ∀ b : String, ¬b.toList.head? = some '/' →
      parsePath (joinPath (s ++ String.mk (List.replicate k '/')) b)
        = parsePath (joinPath s b) := by
    intro b hb
    show pathComps (joinPathChars (s ++ String.mk (List.replicate k '/')).toList
        b.toList) = pathComps (joinPathChars s.toList b.toList)
    rw [htl, pathComps_join hb, pathComps_join hb, pathComps_append_replicate]
  unfold validate_skill contentErrors warningsOf
  rw [hid, hjoin "SKILL.md" (by decide), hjoin "references" (by decide),
    hjoin "scripts" (by decide)]

theorem c10_trailing_separators_witness :
    validate_skill [] ("p/my-skill" ++ String.mk (List.replicate 2 '/'))
      = validate_skill [] "p/my-skill" :=
  c10_trailing_separators [] "p/my-skill" 2 (by decide)

/-- C1, counterexample: the NameRule accepts `"ab\n"` (Python `$` matches
before one trailing newline), scaffolding under `.github/skills` succeeds,
but validating the scaffolded package FAILS: the Validator strips only the
parsed front-matter name, not the directory name, so it reports the
CRITICAL mismatch `'ab'` vs `'ab\n'` — the claimed round trip does not
hold for every accepted name. -/
theorem c1_counterexample :
    isLegalIdentifier "ab\n" = true ∧
      (scaffold_skill (parsePath ".github/skills") "ab\n" true []).1 = none ∧
      validate_skill (scaffold_skill (parsePath ".github/skills") "ab\n" true []).2
          ".github/skills/ab\n"
        = Except.ok
            { errors := ["YAML name \x27ab\x27 mismatches directory \x27ab\n\x27."]
              warnings :=
                ["No \x27references/\x27 directory found. (Acceptable for simple skills).",
                 "No \x27scripts/\x27 directory found. (Acceptable for pure-prompt skills)."] } := by
  refine ⟨by decide, by decide, by decide⟩

/-- C1, amended: for every name accepted by the NameRule that also satisfies
the spec's P1 characterization (equivalently, has no trailing newline) and
either value of the simple flag, a successful scaffold followed by running
the Validator on the produced directory yields a report with an empty error
list. -/
theorem c1_scaffold_validate_round_trip (rootStr n : String) (simple : Bool)
    (fs fs' : FS) (hn : specLegal n = true)
    (hs : scaffold_skill (parsePath rootStr) n simple fs = (none, fs')) :
    reportedErrors (validate_skill fs' (rootStr ++ "/" ++ n)) = some [] := by
  have hcore : coreMatch n.toList = true := by
    rw [coreMatch_eq_specLegalChars]; exact hn
  have hleg : isLegalIdentifier n = true := reMatch_of_coreMatch hcore
  obtain ⟨hne, hall, -⟩ := coreMatch_props hcore
  have hslash : ∀ c ∈ n.toList, c ≠ '/' := fun c hc =>
    isNameBody_ne_slash (hall c hc)
  obtain ⟨hdot, hdd⟩ := coreMatch_ne_dots hcore
  have hptl : (rootStr ++ "/" ++ n).toList = rootStr.toList ++ '/' :: n.toList := by
    rw [string_toList_append, string_toList_append]
    show (rootStr.toList ++ ['/']) ++ n.toList = rootStr.toList ++ '/' :: n.toList
    rw [List.append_assoc]
    rfl
  have hid : skill_dir_of (rootStr ++ "/" ++ n) = n := by
    unfold skill_dir_of
    rw [hptl, basename_normpath_comp rootStr.toList hne hslash hdot hdd,
      string_mk_toList]
  have hlastn : ∀ c, n.toList.getLast? = some c → isNameChar c = true := by
    intro c hc
    have hspec := hn
    unfold specLegal specLegalChars at hspec
    simp only [Bool.and_eq_true] at hspec
    have hl := hspec.2
    unfold lastIsNameChar at hl
    simp only [hc] at hl
    exact hl
  have hlast : ¬((rootStr ++ "/" ++ n).toList = [] ∨
      (rootStr ++ "/" ++ n).toList.getLast? = some '/') := by
    rw [hptl]
    rintro (h | h)
    · simp at h
    · rw [getLast?_append_right rootStr.toList ('/' :: n.toList) (by simp)] at h
      rw [show ('/' :: n.toList) = ['/'] ++ n.toList from rfl,
        getLast?_append_right ['/'] n.toList hne] at h
      exact absurd (hlastn '/' h) (by decide)
  have hjoin : ∀ b : String, ¬b.toList.head? = some '/' →
      parsePath (joinPath (rootStr ++ "/" ++ n) b)
        = (parsePath rootStr ++ [n]) ++ pathComps b.toList := by
    intro b hb
    show pathComps (joinPathChars (rootStr ++ "/" ++ n).toList b.toList)
      = (parsePath rootStr ++ [n]) ++ pathComps b.toList
    unfold joinPathChars
    rw [if_neg hb, if_neg hlast, hptl]
    rw [pathComps_hom, pathComps_hom, pathComps_single hne hslash,
      string_mk_toList]
    rfl
  have hmd : pathComps ("SKILL.md".toList) = ["SKILL.md"] := by decide
  have hkey : ∀ (a b : List String), a ≠ b →
      (parsePath rootStr ++ [n]) ++ a ≠ (parsePath rootStr ++ [n]) ++ b :=
    fun a b hab h => hab (List.append_cancel_left h)
  cases hex : existsPath fs (parsePath rootStr ++ [n]) with
  | true => simp [scaffold_skill, hleg, hex] at hs
  | false =>
    cases simple with
    | true =>
      simp only [scaffold_skill, hleg, Bool.true_eq_false, if_false, if_true,
        hex, Bool.false_eq_true, Prod.mk.injEq, true_and] at hs
      subst hs
      simp only [reportedErrors, validate_skill, contentErrors, hid,
        hjoin "SKILL.md" (by decide), hmd, fsLookup_cons_eq,
        metadataErrors_skillMd n hcore,
        namingErrors_eq_nil (reMatch_of_coreMatch hcore), List.nil_append]
    | false =>
      simp only [scaffold_skill, hleg, Bool.true_eq_false, if_false, if_true,
        hex, Bool.false_eq_true, Prod.mk.injEq, true_and] at hs
      subst hs
      simp only [reportedErrors, validate_skill, contentErrors, hid,
        hjoin "SKILL.md" (by decide), hmd]
      rw [fsLookup_cons_ne _ _ (hkey _ _ (by decide)),
        fsLookup_cons_ne _ _ (hkey _ _ (by decide)),
        fsLookup_cons_ne _ _ (hkey _ _ (by decide)),
        fsLookup_cons_ne _ _ (hkey _ _ (by decide)),
        fsLookup_cons_ne _ _ (hkey _ _ (by decide)),
        fsLookup_cons_ne _ _ (hkey _ _ (by decide)),
        fsLookup_cons_eq]
      simp only [metadataErrors_skillMd n hcore,
        namingErrors_eq_nil (reMatch_of_coreMatch hcore), List.nil_append]

theorem c1_scaffold_validate_round_trip_witness :
    specLegal "my-skill" = true ∧
      reportedErrors (validate_skill
          (scaffold_skill (parsePath ".github/skills") "my-skill" false []).2
          (".github/skills" ++ "/" ++ "my-skill")) = some [] :=
  ⟨by decide,
    c1_scaffold_validate_round_trip ".github/skills" "my-skill" false []
      (scaffold_skill (parsePath ".github/skills") "my-skill" false []).2
      (by decide) rfl⟩
